import Mathlib

/-!
Verification of the pagination/iteration engine in `oss/iterators.py`.

The module provides `_BaseIterator` (a pull loop over a buffer, a truncation
flag and continuation markers) and five concrete iterators:
`BucketIterator`, `ObjectIterator`, `MultipartUploadIterator`,
`ObjectUploadIterator` and `PartIterator`.  Each iterator's `_fetch` calls an
external paged-listing collaborator and repopulates the buffer.

Modelling choices:
* Python strings become Lean `String`; Python string comparison (`<`, `>`)
  is code-point lexicographic, embedded as `≤` / `<` on `String.data`
  (`List Char` with the code-point order on `Char`).
* `list.sort(key=...)` is Python's stable ascending sort by key, embedded as
  `List.mergeSort` (also stable) with the key's `≤` as comparator.
* The collaborator (`service.list_buckets`, `bucket.list_objects`,
  `bucket.list_multipart_uploads`, `bucket.list_parts`) is out of scope per
  the design (an external "paged-listing" collaborator) and is modelled as a
  function from the request actually built at the call site to a result
  record.  Request fields that the Python call site omits (so that the
  collaborator's own default applies) are modelled as `Option` set to `none`.
* The iterator's mutable state `{is_truncated, entries, markers...}` becomes
  an explicit triple `Bool × List α × β` where `β` holds the per-policy
  fields (markers and immutable query parameters); `__next__`'s unbounded
  `while` loop becomes a fuel-indexed function.
-/

/-- Python string comparison, ascending: code-point lexicographic `≤`,
used as the sort comparator (`key=lambda obj: obj.name`). -/
def nameLe (a b : String) : Bool := a.data ≤ b.data

/-- Python `a > b` on strings: code-point lexicographic strict order. -/
def strGt (a b : String) : Bool := b.data < a.data

/-- Modelled from the spec: `oss.models.SimplifiedBucketInfo` (the models
module is not part of the analysed sources); a simplified bucket record.
The engine never inspects its fields, so only a name is carried. -/
structure SimplifiedBucketInfo where
  name : String
deriving DecidableEq

/-- Modelled from the spec: `oss.models.SimplifiedObjectInfo` (the models
module is not part of the analysed sources); a simplified object record with
a `name` and further fields that are all null (`none`) on synthesized
common-prefix placeholder records, per §3 of the design. The constructor
argument order matches the call `SimplifiedObjectInfo(prefix, None, None,
None, None)` in `ObjectIterator._fetch`. -/
structure SimplifiedObjectInfo where
  name : String
  last_modified : Option Nat
  etag : Option String
  type : Option String
  size : Option Nat
deriving DecidableEq

/-- Modelled from the spec: `oss.models.MultipartUploadInfo` (the models
module is not part of the analysed sources); a multipart-upload record with
an `object_name` and further fields that are all null (`none`) on synthesized
common-prefix placeholders, matching `MultipartUploadInfo(prefix, None, None)`
in `MultipartUploadIterator._fetch`. -/
structure MultipartUploadInfo where
  object_name : String
  upload_id : Option String
  initiation_date : Option Nat
deriving DecidableEq

/-- A part record (`list_parts` entry); the engine never inspects it. -/
structure PartInfo where
  part_number : Nat
deriving DecidableEq

/-- Arguments of `service.list_buckets` as built in `BucketIterator._fetch`.
`pfx` models the `prefix=` keyword argument. -/
structure ListBucketsRequest where
  pfx : String
  marker : String
  max_keys : Nat
deriving DecidableEq

/-- Result of `service.list_buckets` as consumed by `BucketIterator._fetch`. -/
structure BucketListResult where
  buckets : List SimplifiedBucketInfo
  is_truncated : Bool
  next_marker : String
deriving DecidableEq

/-- Arguments of `bucket.list_objects` as built in `ObjectIterator._fetch`.
`pfx`/`delim` model the `prefix=`/`delimiter=` keyword arguments. -/
structure ListObjectsRequest where
  pfx : String
  delim : String
  marker : String
  max_keys : Nat
deriving DecidableEq

/-- Result of `bucket.list_objects`: concrete entries (`object_list`),
common-prefix grouping keys (`pfx_list`, modelling `prefix_list`),
truncation flag and next marker. -/
structure ObjectListResult where
  object_list : List SimplifiedObjectInfo
  pfx_list : List String
  is_truncated : Bool
  next_marker : String
deriving DecidableEq

/-- Arguments of `bucket.list_multipart_uploads`.  `delim` and `max_uploads`
are `Option` because `ObjectUploadIterator._fetch` omits both keyword
arguments (the collaborator's defaults apply there), while
`MultipartUploadIterator._fetch` passes both explicitly. -/
structure ListMultipartUploadsRequest where
  pfx : String
  delim : Option String
  key_marker : String
  upload_id_marker : String
  max_uploads : Option Nat
deriving DecidableEq

/-- Result of `bucket.list_multipart_uploads`: concrete upload entries,
common-prefix grouping keys (`pfx_list`, modelling `prefix_list`),
truncation flag and the compound next cursor. -/
structure MultipartUploadListResult where
  upload_list : List MultipartUploadInfo
  pfx_list : List String
  is_truncated : Bool
  next_key_marker : String
  next_upload_id_marker : String
deriving DecidableEq

/-- Arguments of `bucket.list_parts` as built in `PartIterator._fetch`. -/
structure ListPartsRequest where
  object_name : String
  upload_id : String
  marker : String
  max_parts : Nat
deriving DecidableEq

/-- Result of `bucket.list_parts` as consumed by `PartIterator._fetch`. -/
structure PartListResult where
  parts : List PartInfo
  is_truncated : Bool
  next_marker : String
deriving DecidableEq

/-- The full iterator state: `(is_truncated, entries, policy fields)`,
mirroring `_BaseIterator.__init__` plus the subclass's own attributes. -/
abbrev IterSt (α β : Type) := Bool × List α × β

/-- Outcome of one `__next__` call: an item is yielded (state advanced),
`StopIteration` is raised, or the modelling fuel ran out (the Python loop
would still be running). -/
inductive NextResult (α β : Type) where
  | yield (item : α) (s : IterSt α β)
  | stop (s : IterSt α β)
  | fuelOut
deriving DecidableEq

/-- `_BaseIterator.__next__`: loop — pop the front buffered entry if any;
otherwise raise `StopIteration` when `is_truncated` is false; otherwise run
`_fetch` (which rebuilds the buffer and markers and returns the new
`is_truncated` / `next_marker`, folded here into the state it returns) and
retry.  `fuel` bounds the number of loop iterations. -/
def pullNext {α β : Type} (fetch : IterSt α β → IterSt α β) :
    Nat → IterSt α β → NextResult α β
  | 0, _ => .fuelOut
  | fuel+1, (t, es, pol) =>
    match es with
    | item :: rest => .yield item (t, rest, pol)
    | [] => if t then pullNext fetch fuel (fetch (t, [], pol)) else .stop (t, [], pol)

/-- Repeatedly call `__next__` until `StopIteration`, collecting the yielded
items.  Returns the items, the final state, and whether `StopIteration` was
actually reached (`false` when the fuel ran out first). -/
def drain {α β : Type} (fetch : IterSt α β → IterSt α β) :
    Nat → IterSt α β → List α × IterSt α β × Bool
  | 0, s => ([], s, false)
  | fuel+1, (t, es, pol) =>
    match es with
    | item :: rest =>
      let r := drain fetch fuel (t, rest, pol)
      (item :: r.1, r.2)
    | [] => if t then drain fetch fuel (fetch (t, [], pol)) else ([], (t, [], pol), true)

/-- `_BaseIterator.__next__` when `_fetch` may raise: a raised exception
propagates out of `__next__` unchanged, paired here with the iterator state
at the moment of the failed fetch (the Python object's state is unchanged by
the failure, since the collaborator call is the first statement of
`_fetch`). -/
def pullNextE {α β ε : Type} (fetch : IterSt α β → Except ε (IterSt α β)) :
    Nat → IterSt α β → Except (ε × IterSt α β) (NextResult α β)
  | 0, _ => .ok .fuelOut
  | fuel+1, (t, es, pol) =>
    match es with
    | item :: rest => .ok (.yield item (t, rest, pol))
    | [] =>
      if t then
        match fetch (t, [], pol) with
        | .error e => .error (e, (t, [], pol))
        | .ok s' => pullNextE fetch fuel s'
      else .ok (.stop (t, [], pol))

/-- Mutable/immutable attributes of a `BucketIterator` besides the base
state: query parameters and the single `next_marker` cursor. -/
structure BucketPolicy where
  pfx : String
  next_marker : String
  max_keys : Nat
deriving DecidableEq

/-- `BucketIterator.__init__(service, prefix, marker, max_keys)`:
`is_truncated = True`, empty buffer, `next_marker = marker`. -/
def bucketInit (pfx marker : String) (max_keys : Nat) :
    IterSt SimplifiedBucketInfo BucketPolicy :=
  (true, [], ⟨pfx, marker, max_keys⟩)

/-- The `list_buckets` request built by `BucketIterator._fetch`. -/
def bucketRequest (pol : BucketPolicy) : ListBucketsRequest :=
  ⟨pol.pfx, pol.next_marker, pol.max_keys⟩

/-- `BucketIterator._fetch`: buffer ← `result.buckets` verbatim; the base
loop then stores `result.is_truncated` and `result.next_marker`. -/
def bucketFetch (service : ListBucketsRequest → BucketListResult) :
    IterSt SimplifiedBucketInfo BucketPolicy → IterSt SimplifiedBucketInfo BucketPolicy
  | (_, _, pol) =>
    let result := service (bucketRequest pol)
    (result.is_truncated, result.buckets, { pol with next_marker := result.next_marker })

/-- Attributes of an `ObjectIterator` besides the base state. -/
structure ObjectPolicy where
  pfx : String
  delim : String
  next_marker : String
  max_keys : Nat
deriving DecidableEq

/-- `ObjectIterator.__init__(bucket, prefix, delimiter, marker, max_keys)`. -/
def objectInit (pfx delim marker : String) (max_keys : Nat) :
    IterSt SimplifiedObjectInfo ObjectPolicy :=
  (true, [], ⟨pfx, delim, marker, max_keys⟩)

/-- The `list_objects` request built by `ObjectIterator._fetch`. -/
def objectRequest (pol : ObjectPolicy) : ListObjectsRequest :=
  ⟨pol.pfx, pol.delim, pol.next_marker, pol.max_keys⟩

/-- The common-prefix placeholder built in `ObjectIterator._fetch`:
`SimplifiedObjectInfo(prefix, None, None, None, None)`. -/
def objectPlaceholder (p : String) : SimplifiedObjectInfo :=
  ⟨p, none, none, none, none⟩

/-- `ObjectIterator._fetch`: buffer ← concrete entries plus one placeholder
per grouping key, then `entries.sort(key=lambda obj: obj.name)` (stable
ascending sort by name, code-point lexicographic). -/
def objectFetch (bucket : ListObjectsRequest → ObjectListResult) :
    IterSt SimplifiedObjectInfo ObjectPolicy → IterSt SimplifiedObjectInfo ObjectPolicy
  | (_, _, pol) =>
    let result := bucket (objectRequest pol)
    let entries := (result.object_list ++ result.pfx_list.map objectPlaceholder).mergeSort
      (fun a b => nameLe a.name b.name)
    (result.is_truncated, entries, { pol with next_marker := result.next_marker })

/-- Attributes of a `MultipartUploadIterator` besides the base state: query
parameters and the compound cursor `(next_marker, next_upload_id_marker)`. -/
structure MUPolicy where
  pfx : String
  delim : String
  next_marker : String
  next_upload_id_marker : String
  max_uploads : Nat
deriving DecidableEq

/-- `MultipartUploadIterator.__init__(bucket, prefix, delimiter, key_marker,
upload_id_marker, max_uploads)`: the base marker is `key_marker` and
`next_upload_id_marker = upload_id_marker`. -/
def muInit (pfx delim key_marker upload_id_marker : String) (max_uploads : Nat) :
    IterSt MultipartUploadInfo MUPolicy :=
  (true, [], ⟨pfx, delim, key_marker, upload_id_marker, max_uploads⟩)

/-- The `list_multipart_uploads` request built by
`MultipartUploadIterator._fetch`: both cursor halves are supplied, and
`delimiter` / `max_uploads` are passed explicitly. -/
def muRequest (pol : MUPolicy) : ListMultipartUploadsRequest :=
  ⟨pol.pfx, some pol.delim, pol.next_marker, pol.next_upload_id_marker, some pol.max_uploads⟩

/-- The common-prefix placeholder built in `MultipartUploadIterator._fetch`:
`MultipartUploadInfo(prefix, None, None)`. -/
def muPlaceholder (p : String) : MultipartUploadInfo :=
  ⟨p, none, none⟩

/-- State update shared by the plain and the exception-aware embedding of
`MultipartUploadIterator._fetch`, applied to the collaborator's result:
buffer ← concrete uploads plus placeholders, sorted by `object_name`;
both halves of the compound cursor are stored. -/
def muApply (pol : MUPolicy) (result : MultipartUploadListResult) :
    IterSt MultipartUploadInfo MUPolicy :=
  (result.is_truncated,
   (result.upload_list ++ result.pfx_list.map muPlaceholder).mergeSort
     (fun a b => nameLe a.object_name b.object_name),
   { pol with next_marker := result.next_key_marker,
              next_upload_id_marker := result.next_upload_id_marker })

/-- `MultipartUploadIterator._fetch`. -/
def muFetch (bucket : ListMultipartUploadsRequest → MultipartUploadListResult) :
    IterSt MultipartUploadInfo MUPolicy → IterSt MultipartUploadInfo MUPolicy
  | (_, _, pol) => muApply pol (bucket (muRequest pol))

/-- `MultipartUploadIterator._fetch` against a collaborator that may raise:
the collaborator call is the first statement of `_fetch`, so on failure no
attribute of the iterator has been assigned yet. -/
def muFetchE {ε : Type} (bucket : ListMultipartUploadsRequest → Except ε MultipartUploadListResult) :
    IterSt MultipartUploadInfo MUPolicy → Except ε (IterSt MultipartUploadInfo MUPolicy)
  | (_, _, pol) => (bucket (muRequest pol)).map (muApply pol)

/-- Attributes of an `ObjectUploadIterator` besides the base state: the
target object name and the compound cursor. -/
structure OUPolicy where
  object_name : String
  next_marker : String
  next_upload_id_marker : String
deriving DecidableEq

/-- `ObjectUploadIterator.__init__(bucket, object_name)`: base marker `''`
and `next_upload_id_marker = ''`. -/
def ouInit (object_name : String) : IterSt MultipartUploadInfo OUPolicy :=
  (true, [], ⟨object_name, "", ""⟩)

/-- The `list_multipart_uploads` request built by
`ObjectUploadIterator._fetch`: the target object name is the listing's
server-side filter (the `prefix=` argument); `delimiter` and `max_uploads`
are not passed (`none`). -/
def ouRequest (pol : OUPolicy) : ListMultipartUploadsRequest :=
  ⟨pol.object_name, none, pol.next_marker, pol.next_upload_id_marker, none⟩

/-- `ObjectUploadIterator._fetch`: keep only the exact-name matches, store
both halves of the compound cursor, then decide continuation — not-truncated
when the raw page was not truncated or no exact match survived; not-truncated
when the server's next key-marker sorts strictly after the target name;
otherwise the server's truncation flag. -/
def ouFetch (bucket : ListMultipartUploadsRequest → MultipartUploadListResult) :
    IterSt MultipartUploadInfo OUPolicy → IterSt MultipartUploadInfo OUPolicy
  | (_, _, pol) =>
    let result := bucket (ouRequest pol)
    let entries := result.upload_list.filter (fun u => u.object_name == pol.object_name)
    let pol' : OUPolicy :=
      { pol with next_marker := result.next_key_marker,
                 next_upload_id_marker := result.next_upload_id_marker }
    if !result.is_truncated || entries.isEmpty then (false, entries, pol')
    else if strGt result.next_key_marker pol.object_name then (false, entries, pol')
    else (result.is_truncated, entries, pol')

/-- Attributes of a `PartIterator` besides the base state. -/
structure PartPolicy where
  object_name : String
  upload_id : String
  next_marker : String
  max_parts : Nat
deriving DecidableEq

/-- `PartIterator.__init__(bucket, object_name, upload_id, marker='0',
max_parts)`. -/
def partInit (object_name upload_id : String) (max_parts : Nat)
    (marker : String := "0") : IterSt PartInfo PartPolicy :=
  (true, [], ⟨object_name, upload_id, marker, max_parts⟩)

/-- The `list_parts` request built by `PartIterator._fetch`. -/
def partRequest (pol : PartPolicy) : ListPartsRequest :=
  ⟨pol.object_name, pol.upload_id, pol.next_marker, pol.max_parts⟩

/-- `PartIterator._fetch`: buffer ← `result.parts` verbatim. -/
def partFetch (bucket : ListPartsRequest → PartListResult) :
    IterSt PartInfo PartPolicy → IterSt PartInfo PartPolicy
  | (_, _, pol) =>
    let result := bucket (partRequest pol)
    (result.is_truncated, result.parts, { pol with next_marker := result.next_marker })

/-- A scripted collaborator for whole-run statements: the remote side is a
fixed finite list of pages (consumed in order); a fetch installs the next
page's shaped items and truncation flag.  `shape` abstracts the per-policy
shaping (verbatim copy, or merge of entries and placeholders plus sort). -/
def scriptFetch {π α : Type} (shape : π → List α) (trunc : π → Bool) :
    IterSt α (List π) → IterSt α (List π)
  | (_, _, []) => (false, [], [])
  | (_, _, p :: ps) => (trunc p, shape p, ps)

/-- Fuel sufficient to run a scripted iteration to exhaustion: one loop
iteration per delivered item, one per page fetch, one for the final
`StopIteration`. -/
def pagesFuel {π α : Type} (shape : π → List α) (ps : List π) : Nat :=
  (ps.map (fun p => (shape p).length)).sum + ps.length + 1

/-- The comparator `nameLe` is transitive (code-point lexicographic order). -/
theorem nameLe_trans (a b c : String) (h1 : nameLe a b = true) (h2 : nameLe b c = true) :
    nameLe a c = true := by
  simp only [nameLe, decide_eq_true_eq] at *
  exact le_trans h1 h2

/-- The comparator `nameLe` is total. -/
theorem nameLe_total (a b : String) : (nameLe a b || nameLe b a) = true := by
  simp only [nameLe, Bool.or_eq_true, decide_eq_true_eq]
  exact le_total a.data b.data

/-- The buffer and the policy state produced by `ObjectUploadIterator._fetch`
are the same in all three continuation branches: the buffer is the
exact-name filter of the page, and both cursor halves are stored. -/
theorem ou_components (bucket : ListMultipartUploadsRequest → MultipartUploadListResult)
    (t : Bool) (es : List MultipartUploadInfo) (pol : OUPolicy) :
    (ouFetch bucket (t, es, pol)).2.1
      = (bucket (ouRequest pol)).upload_list.filter (fun u => u.object_name == pol.object_name)
  ∧ (ouFetch bucket (t, es, pol)).2.2
      = { object_name := pol.object_name,
          next_marker := (bucket (ouRequest pol)).next_key_marker,
          next_upload_id_marker := (bucket (ouRequest pol)).next_upload_id_marker } := by
  constructor <;>
    (simp only [ouFetch]
     split
     · rfl
     · split <;> rfl)

/-- Claim C3: one `__next__` call pops and returns the front buffer item when
the buffer is non-empty; with an empty buffer it raises `StopIteration`
exactly when `is_truncated` is false, and otherwise performs one `_fetch`
(updating flag, cursors and buffer) and retries the same pull logic. -/
theorem base_iterator_next_pull_logic {α β : Type}
    (fetch : IterSt α β → IterSt α β) (t : Bool) (item : α) (rest : List α)
    (pol : β) (fuel : Nat) :
    pullNext fetch (fuel+1) (t, item :: rest, pol) = .yield item (t, rest, pol)
  ∧ pullNext fetch (fuel+1) (false, [], pol) = .stop (false, [], pol)
  ∧ pullNext fetch (fuel+1) (true, [], pol) = pullNext fetch fuel (fetch (true, [], pol))
  ∧ (∀ (t' : Bool) (es' : List α),
      pullNext fetch 1 (t', es', pol) = .stop (t', es', pol) ↔ es' = [] ∧ t' = false) := by
  refine ⟨rfl, rfl, rfl, ?_⟩
  intro t' es'
  cases es' with
  | nil => cases t' <;> simp [pullNext]
  | cons a l => simp [pullNext]

/-- Claim C9: every freshly constructed iterator has `is_truncated = true`
and an empty buffer, its first request carries the construction-time
cursor(s), and the first `__next__` call goes through `_fetch` before any
exhaustion decision. -/
theorem fresh_iterator_fetches_before_exhaustion (fuel : Nat) :
    (∀ pfx marker max_keys,
        bucketInit pfx marker max_keys = (true, [], ⟨pfx, marker, max_keys⟩)
      ∧ bucketRequest (bucketInit pfx marker max_keys).2.2 = ⟨pfx, marker, max_keys⟩
      ∧ ∀ fetch, pullNext fetch (fuel+1) (bucketInit pfx marker max_keys)
          = pullNext fetch fuel (fetch (bucketInit pfx marker max_keys)))
  ∧ (∀ pfx delim marker max_keys,
        objectInit pfx delim marker max_keys = (true, [], ⟨pfx, delim, marker, max_keys⟩)
      ∧ objectRequest (objectInit pfx delim marker max_keys).2.2
          = ⟨pfx, delim, marker, max_keys⟩
      ∧ ∀ fetch, pullNext fetch (fuel+1) (objectInit pfx delim marker max_keys)
          = pullNext fetch fuel (fetch (objectInit pfx delim marker max_keys)))
  ∧ (∀ pfx delim key_marker upload_id_marker max_uploads,
        muInit pfx delim key_marker upload_id_marker max_uploads
          = (true, [], ⟨pfx, delim, key_marker, upload_id_marker, max_uploads⟩)
      ∧ muRequest (muInit pfx delim key_marker upload_id_marker max_uploads).2.2
          = ⟨pfx, some delim, key_marker, upload_id_marker, some max_uploads⟩
      ∧ ∀ fetch, pullNext fetch (fuel+1) (muInit pfx delim key_marker upload_id_marker max_uploads)
          = pullNext fetch fuel (fetch (muInit pfx delim key_marker upload_id_marker max_uploads)))
  ∧ (∀ object_name,
        ouInit object_name = (true, [], ⟨object_name, "", ""⟩)
      ∧ ouRequest (ouInit object_name).2.2 = ⟨object_name, none, "", "", none⟩
      ∧ ∀ fetch, pullNext fetch (fuel+1) (ouInit object_name)
          = pullNext fetch fuel (fetch (ouInit object_name)))
  ∧ (∀ object_name upload_id max_parts marker,
        partInit object_name upload_id max_parts marker
          = (true, [], ⟨object_name, upload_id, marker, max_parts⟩)
      ∧ partRequest (partInit object_name upload_id max_parts marker).2.2
          = ⟨object_name, upload_id, marker, max_parts⟩
      ∧ ∀ fetch, pullNext fetch (fuel+1) (partInit object_name upload_id max_parts marker)
          = pullNext fetch fuel (fetch (partInit object_name upload_id max_parts marker))) :=
  ⟨fun _ _ _ => ⟨rfl, rfl, fun _ => rfl⟩,
   fun _ _ _ _ => ⟨rfl, rfl, fun _ => rfl⟩,
   fun _ _ _ _ _ => ⟨rfl, rfl, fun _ => rfl⟩,
   fun _ => ⟨rfl, rfl, fun _ => rfl⟩,
   fun _ _ _ _ => ⟨rfl, rfl, fun _ => rfl⟩⟩

/-- Claim C8: `BucketIterator._fetch` and `PartIterator._fetch` install the
collaborator's entries verbatim (no merge, filter or re-sort); a one-page
bucket listing of three buckets with `truncated = false` yields exactly those
three buckets in order and then stops on every further call. -/
theorem bucket_part_fetch_verbatim :
    (∀ (service : ListBucketsRequest → BucketListResult) t es pol,
        (bucketFetch service (t, es, pol)).2.1 = (service (bucketRequest pol)).buckets)
  ∧ (∀ (bucket : ListPartsRequest → PartListResult) t es pol,
        (partFetch bucket (t, es, pol)).2.1 = (bucket (partRequest pol)).parts)
  ∧ drain (bucketFetch (fun _ => ⟨[⟨"b1"⟩, ⟨"b2"⟩, ⟨"b3"⟩], false, "m"⟩)) 5
        (bucketInit "" "" 100)
      = ([⟨"b1"⟩, ⟨"b2"⟩, ⟨"b3"⟩], (false, [], ⟨"", "m", 100⟩), true)
  ∧ (∀ fuel (pol : BucketPolicy) fetch,
        pullNext fetch (fuel+1) (false, ([] : List SimplifiedBucketInfo), pol)
          = .stop (false, [], pol)) :=
  ⟨fun _ _ _ _ => rfl, fun _ _ _ _ => rfl, rfl, fun _ _ _ => rfl⟩

/-- Claim C5: `MultipartUploadIterator` carries the compound cursor in full —
after a fetch, both stored markers equal the page's `next_key_marker` /
`next_upload_id_marker`, the next request is built from exactly those two
values, the first request uses the construction-time markers, and delivering
buffered items never touches the policy state. -/
theorem multipartUploadIterator_compound_cursor_propagation
    (bucket : ListMultipartUploadsRequest → MultipartUploadListResult)
    (t : Bool) (es : List MultipartUploadInfo) (pol : MUPolicy) :
    (muFetch bucket (t, es, pol)).2.2.next_marker = (bucket (muRequest pol)).next_key_marker
  ∧ (muFetch bucket (t, es, pol)).2.2.next_upload_id_marker
      = (bucket (muRequest pol)).next_upload_id_marker
  ∧ muRequest (muFetch bucket (t, es, pol)).2.2
      = ⟨pol.pfx, some pol.delim, (bucket (muRequest pol)).next_key_marker,
         (bucket (muRequest pol)).next_upload_id_marker, some pol.max_uploads⟩
  ∧ (∀ pfx delim key_marker upload_id_marker max_uploads,
       muRequest (muInit pfx delim key_marker upload_id_marker max_uploads).2.2
         = ⟨pfx, some delim, key_marker, upload_id_marker, some max_uploads⟩)
  ∧ (∀ (fuel : Nat) item rest, pullNext (muFetch bucket) (fuel+1) (t, item :: rest, pol)
       = .yield item (t, rest, pol)) :=
  ⟨rfl, rfl, rfl, fun _ _ _ _ _ => rfl, fun _ _ _ => rfl⟩

/-- Claim C10: `ObjectUploadIterator._fetch` passes neither a delimiter nor a
page-size hint, never synthesizes placeholder items (its buffer is an
order-preserving sublist of the page's concrete upload records), and its
outcome is independent of any grouping keys in the page. -/
theorem objectUploadIterator_no_placeholders
    (bucket : ListMultipartUploadsRequest → MultipartUploadListResult)
    (t : Bool) (es : List MultipartUploadInfo) (pol : OUPolicy) :
    (ouRequest pol).delim = none
  ∧ (ouRequest pol).max_uploads = none
  ∧ ((ouFetch bucket (t, es, pol)).2.1).Sublist (bucket (ouRequest pol)).upload_list
  ∧ (∀ ks, ouFetch (fun q => { bucket q with pfx_list := ks }) (t, es, pol)
       = ouFetch bucket (t, es, pol)) := by
  refine ⟨rfl, rfl, ?_, fun _ => rfl⟩
  rw [(ou_components bucket t es pol).1]
  exact List.filter_sublist _

/-- Claim C1: the continuation decision of `ObjectUploadIterator._fetch` is a
3-way policy evaluated in order: not-truncated when the raw page is
not-truncated or the exact-name filter kept nothing; not-truncated when the
server's next key-marker sorts strictly after the target name; otherwise the
server's flag is reported and both returned markers are carried forward. -/
theorem objectUploadIterator_fetch_three_way_policy
    (bucket : ListMultipartUploadsRequest → MultipartUploadListResult)
    (t : Bool) (es : List MultipartUploadInfo) (pol : OUPolicy) :
    ((bucket (ouRequest pol)).is_truncated = false
        ∨ (bucket (ouRequest pol)).upload_list.filter
            (fun u => u.object_name == pol.object_name) = []
      → (ouFetch bucket (t, es, pol)).1 = false)
  ∧ ((bucket (ouRequest pol)).upload_list.filter
        (fun u => u.object_name == pol.object_name) ≠ []
      → pol.object_name.data < (bucket (ouRequest pol)).next_key_marker.data
      → (ouFetch bucket (t, es, pol)).1 = false)
  ∧ ((bucket (ouRequest pol)).upload_list.filter
        (fun u => u.object_name == pol.object_name) ≠ []
      → ¬ pol.object_name.data < (bucket (ouRequest pol)).next_key_marker.data
      → (ouFetch bucket (t, es, pol)).1 = (bucket (ouRequest pol)).is_truncated
        ∧ (ouFetch bucket (t, es, pol)).2.2.next_marker
            = (bucket (ouRequest pol)).next_key_marker
        ∧ (ouFetch bucket (t, es, pol)).2.2.next_upload_id_marker
            = (bucket (ouRequest pol)).next_upload_id_marker) := by
  refine ⟨?_, ?_, ?_⟩
  · intro h
    rcases h with h | h <;>
      simp [ouFetch, h, List.isEmpty_iff]
  · intro hne hlt
    by_cases htr : (bucket (ouRequest pol)).is_truncated
    · simp [ouFetch, htr, hlt, strGt, List.isEmpty_iff, hne]
    · have htr' : (bucket (ouRequest pol)).is_truncated = false := by simpa using htr
      simp [ouFetch, htr']
  · intro hne hge
    by_cases htr : (bucket (ouRequest pol)).is_truncated
    · simp [ouFetch, htr, hge, strGt, List.isEmpty_iff, hne,
        (ou_components bucket t es pol).2]
    · have htr' : (bucket (ouRequest pol)).is_truncated = false := by simpa using htr
      simp [ouFetch, htr', strGt, hge, List.isEmpty_iff, hne]

/-- Witness for the three branches of the C1 policy at concrete pages for
target object name `"t"`: a not-truncated page, a truncated page whose next
key-marker `"z"` sorts after `"t"`, and a truncated page whose next
key-marker `"t"` does not sort after `"t"` (markers `"t"` / `"u9"` are then
carried forward). -/
theorem objectUploadIterator_fetch_three_way_policy_cases :
    (ouFetch (fun _ => ⟨[], [], false, "", ""⟩) (true, [], ⟨"t", "", ""⟩)).1 = false
  ∧ (ouFetch (fun _ => ⟨[⟨"t", none, none⟩], [], true, "z", "u"⟩)
      (true, [], ⟨"t", "", ""⟩)).1 = false
  ∧ ((ouFetch (fun _ => ⟨[⟨"t", none, none⟩], [], true, "t", "u9"⟩)
        (true, [], ⟨"t", "", ""⟩)).1
       = ((fun (_ : ListMultipartUploadsRequest) =>
            (⟨[⟨"t", none, none⟩], [], true, "t", "u9"⟩ : MultipartUploadListResult))
           (ouRequest ⟨"t", "", ""⟩)).is_truncated
     ∧ (ouFetch (fun _ => ⟨[⟨"t", none, none⟩], [], true, "t", "u9"⟩)
          (true, [], ⟨"t", "", ""⟩)).2.2.next_marker = "t"
     ∧ (ouFetch (fun _ => ⟨[⟨"t", none, none⟩], [], true, "t", "u9"⟩)
          (true, [], ⟨"t", "", ""⟩)).2.2.next_upload_id_marker = "u9") :=
  ⟨(objectUploadIterator_fetch_three_way_policy
      (fun _ => ⟨[], [], false, "", ""⟩) true [] ⟨"t", "", ""⟩).1 (Or.inl rfl),
   (objectUploadIterator_fetch_three_way_policy
      (fun _ => ⟨[⟨"t", none, none⟩], [], true, "z", "u"⟩) true [] ⟨"t", "", ""⟩).2.1
      (by decide) (by decide),
   (objectUploadIterator_fetch_three_way_policy
      (fun _ => ⟨[⟨"t", none, none⟩], [], true, "t", "u9"⟩) true [] ⟨"t", "", ""⟩).2.2
      (by decide) (by decide)⟩

/-- Invariant of the `ObjectUploadIterator` pull loop: if every buffered
entry carries the target object name, then so does every item the loop ever
delivers (each `_fetch` refills the buffer with exact-name matches only and
leaves the target name unchanged). -/
theorem ou_drain_names (bucket : ListMultipartUploadsRequest → MultipartUploadListResult)
    (fuel : Nat) :
    ∀ (t : Bool) (es : List MultipartUploadInfo) (pol : OUPolicy),
      (∀ a ∈ es, a.object_name = pol.object_name) →
      ∀ a ∈ (drain (ouFetch bucket) fuel (t, es, pol)).1, a.object_name = pol.object_name := by
  induction fuel with
  | zero =>
    intro t es pol _ a ha
    simp [drain] at ha
  | succ n ih =>
    intro t es pol h a ha
    match es with
    | item :: rest =>
      rw [drain] at ha
      rcases List.mem_cons.mp ha with rfl | hmem
      · exact h a (List.mem_cons_self a rest)
      · exact ih t rest pol (fun b hb => h b (List.mem_cons_of_mem item hb)) a hmem
    | [] =>
      cases t with
      | false => simp [drain] at ha
      | true =>
        rw [show drain (ouFetch bucket) (n+1) ((true : Bool), ([] : List MultipartUploadInfo), pol)
              = drain (ouFetch bucket) n (ouFetch bucket (true, [], pol)) from rfl] at ha
        rcases hx : ouFetch bucket (true, [], pol) with ⟨f', es', pol'⟩
        rw [hx] at ha
        have hents := (ou_components bucket true [] pol).1
        have hpol := (ou_components bucket true [] pol).2
        rw [hx] at hents hpol
        have hents' : es' = (bucket (ouRequest pol)).upload_list.filter
            (fun u => u.object_name == pol.object_name) := hents
        have hpol' : pol' = ⟨pol.object_name, (bucket (ouRequest pol)).next_key_marker,
            (bucket (ouRequest pol)).next_upload_id_marker⟩ := hpol
        have hpol_name : pol'.object_name = pol.object_name := by rw [hpol']
        have hes' : ∀ b ∈ es', b.object_name = pol'.object_name := by
          intro b hb
          rw [hents'] at hb
          rw [hpol_name]
          exact eq_of_beq (List.mem_filter.mp hb).2
        have hmain := ih f' es' pol' hes' a ha
        rw [hpol_name] at hmain
        exact hmain

/-- Claim C6: `ObjectUploadIterator._fetch` keeps exactly the entries of the
page whose object name equals the target, and consequently every item the
iterator ever yields carries the target object name. -/
theorem objectUploadIterator_yields_only_target
    (bucket : ListMultipartUploadsRequest → MultipartUploadListResult)
    (t : Bool) (es : List MultipartUploadInfo) (pol : OUPolicy) :
    (ouFetch bucket (t, es, pol)).2.1
      = (bucket (ouRequest pol)).upload_list.filter
          (fun u => u.object_name == pol.object_name)
  ∧ (∀ object_name (fuel : Nat) a,
       a ∈ (drain (ouFetch bucket) fuel (ouInit object_name)).1 →
       a.object_name = object_name) := by
  refine ⟨(ou_components bucket t es pol).1, ?_⟩
  intro object_name fuel a ha
  exact ou_drain_names bucket fuel true [] ⟨object_name, "", ""⟩ (by simp) a ha

/-- Witness for C6: against a one-page collaborator holding one exact match
for `"t"` and one mere prefix match `"tx"`, the run yields exactly the
`"t"` record, whose object name the theorem then determines. -/
theorem objectUploadIterator_yields_only_target_instance :
    (⟨"t", some "u1", none⟩ : MultipartUploadInfo).object_name = "t" :=
  (objectUploadIterator_yields_only_target
    (fun _ => ⟨[⟨"t", some "u1", none⟩, ⟨"tx", none, none⟩], [], false, "", ""⟩)
    true [] ⟨"t", "", ""⟩).2 "t" 3 ⟨"t", some "u1", none⟩ (by decide)

/-- Claim C4: `ObjectIterator._fetch` and `MultipartUploadIterator._fetch`
set the buffer to the page's concrete records plus one all-null placeholder
per grouping key, sorted ascending by the name/key field (code-point
lexicographic): the buffer is a permutation of the concatenation, it is
pairwise-sorted by name, and concrete names `b, d` with grouping keys
`a, c` produce the buffer order `a, b, c, d`. -/
theorem grouping_merge_fetch_sorted_buffer
    (bucketO : ListObjectsRequest → ObjectListResult)
    (bucketU : ListMultipartUploadsRequest → MultipartUploadListResult)
    (t : Bool) (esO : List SimplifiedObjectInfo) (esU : List MultipartUploadInfo)
    (polO : ObjectPolicy) (polU : MUPolicy) :
    ((objectFetch bucketO (t, esO, polO)).2.1).Perm
        ((bucketO (objectRequest polO)).object_list
          ++ (bucketO (objectRequest polO)).pfx_list.map objectPlaceholder)
  ∧ ((objectFetch bucketO (t, esO, polO)).2.1).Pairwise
        (fun a b => nameLe a.name b.name = true)
  ∧ ((muFetch bucketU (t, esU, polU)).2.1).Perm
        ((bucketU (muRequest polU)).upload_list
          ++ (bucketU (muRequest polU)).pfx_list.map muPlaceholder)
  ∧ ((muFetch bucketU (t, esU, polU)).2.1).Pairwise
        (fun a b => nameLe a.object_name b.object_name = true)
  ∧ (∀ p, objectPlaceholder p = ⟨p, none, none, none, none⟩)
  ∧ (∀ p, muPlaceholder p = ⟨p, none, none⟩)
  ∧ (objectFetch
        (fun _ => ⟨[⟨"b", some 1, none, none, none⟩, ⟨"d", some 2, none, none, none⟩],
                   ["a", "c"], false, ""⟩)
        (t, esO, polO)).2.1
      = [objectPlaceholder "a", ⟨"b", some 1, none, none, none⟩,
         objectPlaceholder "c", ⟨"d", some 2, none, none, none⟩] := by
  refine ⟨?_, ?_, ?_, ?_, fun _ => rfl, fun _ => rfl, ?_⟩
  · show (((bucketO (objectRequest polO)).object_list
        ++ (bucketO (objectRequest polO)).pfx_list.map objectPlaceholder).mergeSort
          (fun a b => nameLe a.name b.name)).Perm _
    exact List.mergeSort_perm _ _
  · show (((bucketO (objectRequest polO)).object_list
        ++ (bucketO (objectRequest polO)).pfx_list.map objectPlaceholder).mergeSort
          (fun a b => nameLe a.name b.name)).Pairwise _
    exact @List.sorted_mergeSort SimplifiedObjectInfo (fun a b => nameLe a.name b.name)
      (fun a b c h1 h2 => nameLe_trans _ _ _ h1 h2) (fun a b => nameLe_total _ _) _
  · show (((bucketU (muRequest polU)).upload_list
        ++ (bucketU (muRequest polU)).pfx_list.map muPlaceholder).mergeSort
          (fun a b => nameLe a.object_name b.object_name)).Perm _
    exact List.mergeSort_perm _ _
  · show (((bucketU (muRequest polU)).upload_list
        ++ (bucketU (muRequest polU)).pfx_list.map muPlaceholder).mergeSort
          (fun a b => nameLe a.object_name b.object_name)).Pairwise _
    exact @List.sorted_mergeSort MultipartUploadInfo (fun a b => nameLe a.object_name b.object_name)
      (fun a b c h1 h2 => nameLe_trans _ _ _ h1 h2) (fun a b => nameLe_total _ _) _
  · simp +decide [objectFetch, objectRequest, objectPlaceholder, nameLe,
      List.mergeSort, List.splitInTwo, List.merge]

/-- A raising collaborator makes `muFetchE` raise the same exception, and a
pure collaborator makes it agree with `muFetch`. -/
theorem muFetchE_error_iff {ε : Type}
    (bucket : ListMultipartUploadsRequest → Except ε MultipartUploadListResult)
    (t : Bool) (es : List MultipartUploadInfo) (pol : MUPolicy) (e : ε) :
    (muFetchE bucket (t, es, pol) = .error e ↔ bucket (muRequest pol) = .error e)
  ∧ (∀ (pure_bucket : ListMultipartUploadsRequest → MultipartUploadListResult),
       muFetchE (ε := ε) (fun q => .ok (pure_bucket q)) (t, es, pol)
         = .ok (muFetch pure_bucket (t, es, pol))) := by
  refine ⟨?_, fun _ => rfl⟩
  rw [show muFetchE bucket (t, es, pol) = (bucket (muRequest pol)).map (muApply pol) from rfl]
  cases hb : bucket (muRequest pol) with
  | error e' =>
    show (Except.error e' : Except ε (IterSt MultipartUploadInfo MUPolicy)) = .error e ↔ _
    constructor
    · intro h2
      have he : e' = e := by injection h2
      rw [he]
    · intro h2
      have he : e' = e := by injection h2
      rw [he]
  | ok r =>
    show (Except.ok (muApply pol r) : Except ε (IterSt MultipartUploadInfo MUPolicy))
        = .error e ↔ Except.ok r = .error e
    constructor <;> (intro h2; exact absurd h2 (by simp))

/-- Claim C7: when the collaborator raises during a fetch, the exception
propagates unchanged out of `__next__` and the iterator state it was raised
from is exactly the pre-fetch state (empty buffer, `is_truncated = true`,
cursors not advanced), so calling `__next__` again re-attempts the very same
fetch — with the same request — and fails identically. -/
theorem fetch_failure_propagates_state_preserved {ε : Type}
    (bucket : ListMultipartUploadsRequest → Except ε MultipartUploadListResult)
    (fuel : Nat) :
    ∀ (s : IterSt MultipartUploadInfo MUPolicy) (e : ε)
      (s₁ : IterSt MultipartUploadInfo MUPolicy),
      pullNextE (muFetchE bucket) fuel s = .error (e, s₁) →
        bucket (muRequest s₁.2.2) = .error e
      ∧ s₁.1 = true ∧ s₁.2.1 = []
      ∧ muFetchE bucket s₁ = .error e
      ∧ (∀ fuel', pullNextE (muFetchE bucket) (fuel'+1) s₁ = .error (e, s₁)) := by
  induction fuel with
  | zero =>
    intro s e s₁ h
    simp [pullNextE] at h
  | succ n ih =>
    intro s e s₁ h
    obtain ⟨t, es, pol⟩ := s
    match es with
    | item :: rest => simp [pullNextE] at h
    | [] =>
      cases t with
      | false => simp [pullNextE] at h
      | true =>
        cases hb : muFetchE bucket (true, [], pol) with
        | error e0 =>
          have hstep : pullNextE (muFetchE bucket) (n+1)
              ((true : Bool), ([] : List MultipartUploadInfo), pol)
              = .error (e0, (true, [], pol)) := by
            simp [pullNextE, hb]
          rw [hstep] at h
          simp only [Except.error.injEq, Prod.mk.injEq] at h
          obtain ⟨rfl, rfl⟩ := h
          refine ⟨(muFetchE_error_iff bucket true [] pol e0).1.mp hb, rfl, rfl, hb, ?_⟩
          intro fuel'
          simp [pullNextE, hb]
        | ok s' =>
          have hstep : pullNextE (muFetchE bucket) (n+1)
              ((true : Bool), ([] : List MultipartUploadInfo), pol)
              = pullNextE (muFetchE bucket) n s' := by
            simp [pullNextE, hb]
          rw [hstep] at h
          exact ih s' e s₁ h

/-- Witness for C7: a collaborator that always raises `"boom"` makes the
first `__next__` of a fresh `MultipartUploadIterator` propagate `"boom"`
with the iterator state untouched, and the failing request is re-derivable
from that state. -/
theorem fetch_failure_propagates_state_preserved_instance :
    (fun (_ : ListMultipartUploadsRequest) =>
        (Except.error "boom" : Except String MultipartUploadListResult))
      (muRequest (((true, [], ⟨"p", "d", "k", "u", 5⟩) :
        IterSt MultipartUploadInfo MUPolicy)).2.2) = .error "boom"
  ∧ pullNextE (muFetchE (fun _ =>
        (Except.error "boom" : Except String MultipartUploadListResult))) 1
      ((true, [], ⟨"p", "d", "k", "u", 5⟩) : IterSt MultipartUploadInfo MUPolicy)
      = .error ("boom", (true, [], ⟨"p", "d", "k", "u", 5⟩)) :=
  ⟨(fetch_failure_propagates_state_preserved (fun _ => .error "boom") 1
      (true, [], ⟨"p", "d", "k", "u", 5⟩) "boom"
      (true, [], ⟨"p", "d", "k", "u", 5⟩) rfl).1,
   (fetch_failure_propagates_state_preserved (fun _ => .error "boom") 1
      (true, [], ⟨"p", "d", "k", "u", 5⟩) "boom"
      (true, [], ⟨"p", "d", "k", "u", 5⟩) rfl).2.2.2.2 0⟩

/-- Draining a state whose buffer holds `es` first delivers all of `es`,
then continues exactly as draining the same state with an empty buffer. -/
theorem drain_yield_all {α β : Type} (fetch : IterSt α β → IterSt α β) (fuel : Nat) :
    ∀ (es : List α) (t : Bool) (pol : β),
      drain fetch (fuel + es.length) (t, es, pol)
        = (es ++ (drain fetch fuel (t, [], pol)).1, (drain fetch fuel (t, [], pol)).2) := by
  intro es
  induction es with
  | nil => intro t pol; rfl
  | cons a l ih =>
    intro t pol
    rw [show fuel + (a :: l).length = (fuel + l.length) + 1 from rfl]
    rw [show drain fetch ((fuel + l.length) + 1) (t, a :: l, pol)
          = (a :: (drain fetch (fuel + l.length) (t, l, pol)).1,
             (drain fetch (fuel + l.length) (t, l, pol)).2) from rfl]
    rw [ih t pol]
    simp

/-- A completed drain (one that reached `StopIteration`) is unaffected by
extra fuel. -/
theorem drain_mono {α β : Type} (fetch : IterSt α β → IterSt α β) (n : Nat) :
    ∀ (s : IterSt α β) (items : List α) (sfin : IterSt α β),
      drain fetch n s = (items, sfin, true) →
      ∀ k, drain fetch (n + k) s = (items, sfin, true) := by
  induction n with
  | zero =>
    intro s items sfin h k
    rw [drain] at h
    exact absurd h (by simp)
  | succ m ih =>
    intro s items sfin h k
    obtain ⟨t, es, pol⟩ := s
    rw [show (m + 1) + k = (m + k) + 1 from by omega]
    match es with
    | item :: rest =>
      rcases hX : drain fetch m (t, rest, pol) with ⟨l1, s1, c1⟩
      rw [show drain fetch (m+1) (t, item :: rest, pol)
            = (item :: (drain fetch m (t, rest, pol)).1, (drain fetch m (t, rest, pol)).2)
          from rfl, hX] at h
      injection h with h1 h23
      injection h23 with h2 h3
      subst h1
      subst h2
      subst h3
      have hrec := ih (t, rest, pol) l1 s1 hX k
      rw [show drain fetch ((m+k)+1) (t, item :: rest, pol)
            = (item :: (drain fetch (m+k) (t, rest, pol)).1,
               (drain fetch (m+k) (t, rest, pol)).2) from rfl, hrec]
    | [] =>
      cases t with
      | false =>
        rw [show drain fetch (m+1) ((false : Bool), ([] : List α), pol)
              = ([], ((false : Bool), ([] : List α), pol), true) from rfl] at h
        rw [show drain fetch ((m+k)+1) ((false : Bool), ([] : List α), pol)
              = ([], ((false : Bool), ([] : List α), pol), true) from rfl]
        exact h
      | true =>
        rw [show drain fetch (m+1) ((true : Bool), ([] : List α), pol)
              = drain fetch m (fetch (true, [], pol)) from rfl] at h
        rw [show drain fetch ((m+k)+1) ((true : Bool), ([] : List α), pol)
              = drain fetch (m+k) (fetch (true, [], pol)) from rfl]
        exact ih (fetch (true, [], pol)) items sfin h k

/-- Running the pull loop against a script of pages — all truncated except a
final not-truncated one — delivers the concatenation of all the pages'
shaped items and ends in the stopped state. -/
theorem script_drain_exact {π α : Type} (shape : π → List α) (trunc : π → Bool) :
    ∀ (ps : List π) (last : π), (∀ p ∈ ps, trunc p = true) → trunc last = false →
      ∀ k, drain (scriptFetch shape trunc) (pagesFuel shape (ps ++ [last]) + k)
          (true, [], ps ++ [last])
        = (((ps ++ [last]).map shape).flatten, (false, [], []), true) := by
  intro ps
  induction ps with
  | nil =>
    intro last _ hlast k
    have h1 : pagesFuel shape ([] ++ [last]) + k = ((k + 1) + (shape last).length) + 1 := by
      simp [pagesFuel]
      omega
    rw [h1]
    rw [show drain (scriptFetch shape trunc) (((k + 1) + (shape last).length) + 1)
          ((true : Bool), ([] : List α), [] ++ [last])
        = drain (scriptFetch shape trunc) ((k + 1) + (shape last).length)
            (trunc last, shape last, ([] : List π)) from rfl]
    rw [hlast]
    rw [drain_yield_all (scriptFetch shape trunc) (k + 1) (shape last) false []]
    rw [show drain (scriptFetch shape trunc) (k + 1)
          ((false : Bool), ([] : List α), ([] : List π))
        = ([], ((false : Bool), ([] : List α), ([] : List π)), true) from rfl]
    simp
  | cons p ps ih =>
    intro last hmid hlast k
    have hp : trunc p = true := hmid p (List.mem_cons_self p ps)
    have hps : ∀ q ∈ ps, trunc q = true := fun q hq => hmid q (List.mem_cons_of_mem p hq)
    have h1 : pagesFuel shape ((p :: ps) ++ [last]) + k
        = ((pagesFuel shape (ps ++ [last]) + k) + (shape p).length) + 1 := by
      simp [pagesFuel]
      omega
    rw [h1]
    rw [show drain (scriptFetch shape trunc)
          (((pagesFuel shape (ps ++ [last]) + k) + (shape p).length) + 1)
          ((true : Bool), ([] : List α), (p :: ps) ++ [last])
        = drain (scriptFetch shape trunc)
            ((pagesFuel shape (ps ++ [last]) + k) + (shape p).length)
            (trunc p, shape p, ps ++ [last]) from rfl]
    rw [hp]
    rw [drain_yield_all (scriptFetch shape trunc) (pagesFuel shape (ps ++ [last]) + k)
          (shape p) true (ps ++ [last])]
    rw [ih last hps hlast k]
    simp

/-- Claim C2: for any finite page script whose final page is not truncated
(earlier pages truncated, possibly with zero shaped items), the iterator
yields exactly the concatenation of all pages' shaped items and then stops;
an empty-buffer truncated state always re-fetches rather than stopping, and
a stopped state stops on every further call. -/
theorem iterator_yields_concatenation_of_pages {π α β : Type}
    (shape : π → List α) (trunc : π → Bool) (ps : List π) (last : π)
    (hmid : ∀ p ∈ ps, trunc p = true) (hlast : trunc last = false) :
    (∀ fuel, pagesFuel shape (ps ++ [last]) ≤ fuel →
       drain (scriptFetch shape trunc) fuel (true, [], ps ++ [last])
         = (((ps ++ [last]).map shape).flatten, (false, [], []), true))
  ∧ (∀ (fetch : IterSt α β → IterSt α β) (pol : β) (fuel : Nat),
       pullNext fetch (fuel+1) (true, [], pol) = pullNext fetch fuel (fetch (true, [], pol)))
  ∧ (∀ (fetch : IterSt α β → IterSt α β) (pol : β) (fuel : Nat),
       pullNext fetch (fuel+1) (false, [], pol) = .stop (false, [], pol)) := by
  refine ⟨?_, fun _ _ _ => rfl, fun _ _ _ => rfl⟩
  intro fuel hle
  obtain ⟨k, rfl⟩ := Nat.le.dest hle
  exact script_drain_exact shape trunc ps last hmid hlast k

/-- Witness for C2: a script of one truncated page with zero items followed
by a not-truncated page with items `a, b` yields exactly `a, b` and reaches
the stopped state, without premature exhaustion at the empty page. -/
theorem iterator_yields_concatenation_of_pages_instance :
    drain (scriptFetch (Prod.snd : Bool × List String → List String) Prod.fst) 5
      (true, [], [(true, []), (false, ["a", "b"])])
    = (["a", "b"], (false, [], []), true) :=
  (iterator_yields_concatenation_of_pages (β := Unit)
    (Prod.snd : Bool × List String → List String) Prod.fst
    [(true, [])] (false, ["a", "b"]) (by decide) rfl).1 5 (by decide)
